import Mathlib

/-!
Verification of the result-extraction and indexed-array-assembly pipeline
of the ogre-dft-workflow-skill repository.

The two programs modelled are `scripts/4_extract_energies.py` (namespace
`ExtractEnergies`) and `scripts/5_create_npy.py` (namespace `CreateNpy`).
Floating-point cells are modelled by `Val` (a rational or the NaN sentinel);
an OUTCAR document is modelled by its byte size together with the list of
pattern-relevant lines it contains (`LogItem`), each energy line carrying the
shape of its numeral so that the distinct regular expressions of the two
scripts can be told apart.
-/

/-- Float cell value: either the NaN sentinel (missing value) or a rational
number.  Structural equality on `Val` is exactly NaN-aware equality
(NaN equals NaN), which is the equality `np.array_equal (equal_nan := true)`
uses elementwise. -/
inductive Val where
  | nan : Val
  | num : ℚ → Val
deriving DecidableEq

/-- pandas `notna`: true on every value other than the NaN sentinel. -/
def Val.notna : Val → Bool
  | .nan => false
  | .num _ => true

/-- Shape of a numeral as written in the log text.  `plusSigned` records a
leading plus sign; `hasDecimalPoint` records the form digits-point-digits.
The loose character class `[-\d.]+` of script 4 matches a well-formed numeral
iff it has no leading plus; the strict pattern `[-+]?\d+\.\d+` of script 5
matches iff it has a decimal point. -/
structure Numeral where
  val : ℚ
  plusSigned : Bool
  hasDecimalPoint : Bool
deriving DecidableEq

/-- The loose regex capture group of script 4 matches the numeral. -/
def matchesLoose (n : Numeral) : Bool := !n.plusSigned

/-- The strict regex capture group of script 5 matches the numeral. -/
def matchesStrict (n : Numeral) : Bool := n.hasDecimalPoint

/-- One pattern-relevant line of an OUTCAR document. -/
inductive LogItem where
  /-- a line containing `energy  without entropy = <numeral>` -/
  | ewe (n : Numeral)
  /-- a line containing `energy(sigma->0) = <numeral>` -/
  | esig (n : Numeral)
  /-- a line containing `free  energy   TOTEN = <numeral> eV` -/
  | toten (n : Numeral)
  /-- a line containing the literal `reached required accuracy` -/
  | accuracy
  /-- a line containing `Total CPU time used`; the payload is the captured
  seconds value when the full `(sec): <number>` regex matches -/
  | cpu (v : Option ℚ)
  /-- a line containing the literal `DAV:` -/
  | dav
  /-- a line containing the literal `POSITION` ... `TOTAL-FORCE` -/
  | posForce
  /-- any other line -/
  | other
deriving DecidableEq

/-- An existing OUTCAR file: its byte size and its pattern-relevant lines. -/
structure OutcarFile where
  size : ℕ
  items : List LogItem
deriving DecidableEq

/-- An OUTCAR path: `none` when the file does not exist. -/
abbrev Outcar := Option OutcarFile

/-- re.findall of script 4's `energy  without entropy\s*=\s*([-\d.]+)`. -/
def findallEwe (items : List LogItem) : List ℚ :=
  items.filterMap fun it =>
    match it with
    | .ewe n => if matchesLoose n then some n.val else none
    | _ => none

/-- re.findall of script 4's `energy\(sigma->0\)\s*=\s*([-\d.]+)`. -/
def findallSigLoose (items : List LogItem) : List ℚ :=
  items.filterMap fun it =>
    match it with
    | .esig n => if matchesLoose n then some n.val else none
    | _ => none

/-- re.findall of script 5's `energy\(sigma->0\)\s*=\s*([-+]?\d+\.\d+)`. -/
def findallSigStrict (items : List LogItem) : List ℚ :=
  items.filterMap fun it =>
    match it with
    | .esig n => if matchesStrict n then some n.val else none
    | _ => none

/-- re.findall of script 5's `free  energy   TOTEN\s*=\s*([-+]?\d+\.\d+)\s*eV`. -/
def findallToten (items : List LogItem) : List ℚ :=
  items.filterMap fun it =>
    match it with
    | .toten n => if matchesStrict n then some n.val else none
    | _ => none

/-- substring test `'reached required accuracy' in content`. -/
def containsAccuracy (items : List LogItem) : Bool :=
  items.any fun it => it == .accuracy

/-- substring test `'Total CPU time used' in content`. -/
def containsCpuMarker (items : List LogItem) : Bool :=
  items.any fun it =>
    match it with
    | .cpu _ => true
    | _ => false

/-- captured values of `Total CPU time used \(sec\):\s*([\d.]+)`;
`re.search` keeps the first one. -/
def findallCpu (items : List LogItem) : List ℚ :=
  items.filterMap fun it =>
    match it with
    | .cpu (some v) => some v
    | _ => none

/-- count of `DAV:` occurrences. -/
def countDav (items : List LogItem) : ℕ :=
  items.countP fun it => it == .dav

/-- count of `POSITION ... TOTAL-FORCE` occurrences. -/
def countPosForce (items : List LogItem) : ℕ :=
  items.countP fun it => it == .posForce

/-- Character of a directory name, as its Unicode code point. -/
abbrev Ch := ℕ

/-- the character is one of the ASCII digits 0-9. -/
def isDigitCh (c : Ch) : Bool := 48 ≤ c && c ≤ 57

/-- numeric value of an ASCII digit character. -/
def digitVal (c : Ch) : ℕ := c - 48

/-- Python `int(s)` on one name component: succeeds exactly on a nonempty
all-digit component (signs and whitespace, which Python would also accept,
never occur in the run-directory naming convention). -/
def pyIntOfPart (s : List Ch) : Option ℕ :=
  if !s.isEmpty && s.all isDigitCh then
    some (s.foldl (fun acc c => 10 * acc + digitVal c) 0)
  else none

/-- A directory name, represented by its underscore-separated components:
the textual name is the components joined by underscores, so the components
themselves contain no underscore and `name.split('_')` returns exactly this
list. -/
abbrev DirName := List (List Ch)

/-- the code points of the literal `calc`. -/
def calcWord : List Ch := [99, 97, 108, 99]

/-- Python `name.startswith('calc_')`: the first component is exactly `calc`
and an underscore follows it, i.e. there is a second component. -/
def startsWithCalc (name : DirName) : Bool :=
  name.head? == some calcWord && 2 ≤ name.length

/-- Python `int(name.split('_')[1])` wrapped in try/except, the identifier
derivation shared verbatim by both scripts: the second underscore-separated
component parsed as a natural number, `none` when the parse raises. -/
def parseCalcIndex (name : DirName) : Option ℕ :=
  (name.get? 1).bind pyIntOfPart

namespace ExtractEnergies

/-- Result dictionary of `extract_energy_from_outcar` in
`4_extract_energies.py`. -/
structure EnergyInfo where
  energy_without_entropy : Option ℚ
  energy_sigma_0 : Option ℚ
  converged : Bool
  electronic_steps : ℕ
  ionic_steps : ℕ
  total_cpu_time : Option ℚ
  error : Option String
deriving DecidableEq

/-- `extract_energy_from_outcar` of `4_extract_energies.py`: on a missing
file only the error field is set; otherwise convergence, CPU time, the last
match of each of the two energy patterns, and the two step counts are
recorded. -/
def extract_energy_from_outcar (oc : Outcar) : EnergyInfo :=
  match oc with
  | none =>
      { energy_without_entropy := none
        energy_sigma_0 := none
        converged := false
        electronic_steps := 0
        ionic_steps := 0
        total_cpu_time := none
        error := some ("OUTCAR not found") }
  | some f =>
      { energy_without_entropy := (findallEwe f.items).getLast?
        energy_sigma_0 := (findallSigLoose f.items).getLast?
        converged := containsAccuracy f.items
        electronic_steps := countDav f.items
        ionic_steps := countPosForce f.items
        total_cpu_time :=
          if containsCpuMarker f.items then (findallCpu f.items).head? else none
        error := none }

end ExtractEnergies

namespace CreateNpy

/-- The `--energy-type` CLI choice of `5_create_npy.py`. -/
inductive EnergyType where
  | sigma0
  | free
deriving DecidableEq

/-- `extract_energy_from_outcar` of `5_create_npy.py`: `none` when the file
is missing, smaller than 1000 bytes, or lacks the convergence marker; then
the last strict sigma->0 match when the type is `sigma0`, falling back to the
last strict TOTEN match. -/
def extract_energy_from_outcar (oc : Outcar) (energy_type : EnergyType) :
    Option ℚ :=
  match oc with
  | none => none
  | some f =>
      if f.size < 1000 then none
      else if !containsAccuracy f.items then none
      else
        let sigmaHit : Option ℚ :=
          match energy_type with
          | .sigma0 => (findallSigStrict f.items).getLast?
          | .free => none
        match sigmaHit with
        | some v => some v
        | none => (findallToten f.items).getLast?

end CreateNpy

/-- Stable insertion step of the sort used to model Python's stable sorting
(`sorted`, `list.sort`, `DataFrame.sort_values`): an element is inserted
before the first already-placed element it is `le`-below. -/
def insertLe {α : Type} (le : α → α → Bool) (a : α) : List α → List α
  | [] => [a]
  | b :: bs => if le a b then a :: b :: bs else b :: insertLe le a bs

/-- Stable sort by the boolean relation `le`. -/
def pySorted {α : Type} (le : α → α → Bool) : List α → List α
  | [] => []
  | a :: as => insertLe le a (pySorted le as)

/-- lexicographic order on name components (code-point lists). -/
def leChList : List Ch → List Ch → Bool
  | [], _ => true
  | _ :: _, [] => false
  | a :: as, b :: bs => if a == b then leChList as bs else decide (a < b)

/-- lexicographic order on directory names (component lists). -/
def leDirName : DirName → DirName → Bool
  | [], _ => true
  | _ :: _, [] => false
  | a :: as, b :: bs => if a == b then leDirName as bs else leChList a b

/-- The contents of the calculations base directory: each subdirectory's name
together with its OUTCAR file (or `none` when the OUTCAR is absent). -/
abbrev FileSys := List (DirName × Outcar)

/-- maximum of a list of naturals (0 on the empty list). -/
def natMaxList (l : List ℕ) : ℕ := l.foldl max 0

namespace ExtractEnergies

/-- The `Status` column values written by `main`. -/
inductive RunStatus where
  | Success
  | Failed
deriving DecidableEq

/-- One row of the results DataFrame built by `main` of
`4_extract_energies.py` (lines 106-117). -/
structure ResultRow where
  Calculation : DirName
  Index : Option ℕ
  Energy_without_entropy_eV : Option ℚ
  Energy_sigma_0_eV : Option ℚ
  Converged : Bool
  Electronic_steps : ℕ
  Ionic_steps : ℕ
  CPU_time_sec : Option ℚ
  Status : RunStatus
  Error : Option String
deriving DecidableEq

/-- The per-run body of the processing loop of `main`: parse the OUTCAR,
derive the index from the directory name (`None` when unparseable), and
classify the status from the presence of the without-entropy energy. -/
def makeRow (name : DirName) (oc : Outcar) : ResultRow :=
  let info := extract_energy_from_outcar oc
  { Calculation := name
    Index := parseCalcIndex name
    Energy_without_entropy_eV := info.energy_without_entropy
    Energy_sigma_0_eV := info.energy_sigma_0
    Converged := info.converged
    Electronic_steps := info.electronic_steps
    Ionic_steps := info.ionic_steps
    CPU_time_sec := info.total_cpu_time
    Status := if info.energy_without_entropy.isSome then .Success else .Failed
    Error := info.error }

/-- directory discovery of `main` (line 79): subdirectories whose name starts
with `calc_`, sorted lexicographically by name. -/
def calc_dirs (fs : FileSys) : FileSys :=
  pySorted (fun a b => leDirName a.1 b.1) (fs.filter (fun p => startsWithCalc p.1))

/-- the results list accumulated by the processing loop of `main`: exactly
one row per discovered directory. -/
def results (fs : FileSys) : List ResultRow :=
  (calc_dirs fs).map (fun p => makeRow p.1 p.2)

/-- pandas boolean-mask row selection `df[df['Status'] == v]` applied to the
frame `pd.DataFrame(results)`: when `results` is the empty list the frame has
no columns at all, so accessing the Status column raises `KeyError`. -/
def dfFilterStatus (rows : List ResultRow) (v : RunStatus) :
    Except String (List ResultRow) :=
  if rows.isEmpty then .error ("KeyError: Status")
  else .ok (rows.filter (fun r => r.Status == v))

/-- The summary-statistics header values computed by `main`
(lines 128-140). -/
structure Summary where
  total : ℕ
  successful : ℕ
  failed : ℕ
  success_rate : ℚ
deriving DecidableEq

/-- statistics section of `main` (lines 128-140): the Success and Failed row
selections, then the success rate `len(successful)/len(df)*100` (a division
that raises on an empty frame, though the Status KeyError fires first). -/
def mainStats (fs : FileSys) : Except String Summary := do
  let rows := results fs
  let successful_calcs ← dfFilterStatus rows .Success
  let failed_calcs ← dfFilterStatus rows .Failed
  if rows.length = 0 then
    .error ("ZeroDivisionError")
  else
    .ok { total := rows.length
          successful := successful_calcs.length
          failed := failed_calcs.length
          success_rate := (successful_calcs.length : ℚ) / (rows.length : ℚ) * 100 }

/-- outcome of the `pd.ExcelWriter` block of `main`: it completes, raises
`ImportError` (openpyxl unavailable), or raises some other exception. -/
inductive ExcelAttempt where
  | ok
  | importError
  | failOther
deriving DecidableEq

/-- The artifacts `main` can persist: the three Excel sheets, the fallback
CSV of the full table, and the auxiliary summary CSV. -/
inductive Artifact where
  | excelAllEnergies
  | excelSummary
  | excelFailed
  | csvMain
  | csvSummary
deriving DecidableEq

/-- artifact-saving section of `main` (lines 164-211): the Excel write is
attempted first; only `ImportError` is caught, falling back to a CSV of the
table plus — when at least one run succeeded — a summary CSV; any other
Excel failure, and any failure of the fallback CSV write itself, propagates
out of `main`. -/
def saveResults (excel : ExcelAttempt) (csvFails : Bool)
    (nSuccess nFailed : ℕ) : Except String (List Artifact) :=
  match excel with
  | .ok =>
      .ok ([Artifact.excelAllEnergies]
        ++ (if 0 < nSuccess then [Artifact.excelSummary] else [])
        ++ (if 0 < nFailed then [Artifact.excelFailed] else []))
  | .failOther => .error ("excel write failed")
  | .importError =>
      if csvFails then .error ("csv write failed")
      else .ok ([Artifact.csvMain]
        ++ (if 0 < nSuccess then [Artifact.csvSummary] else []))

end ExtractEnergies

namespace CreateNpy

/-- Column names of the persisted table that the assembler inspects (the
exporter's schema). -/
inductive ColName where
  | Calculation
  | Index
  | Energy_eV
  | Energy_without_entropy_eV
  | Energy_sigma_0_eV
  | Converged
  | Electronic_steps
  | Ionic_steps
  | CPU_time_sec
  | Status
  | Error
deriving DecidableEq

/-- One CSV row: the cells keyed by column name.  A key absent from the row
reads as NaN, matching a missing value in the frame. -/
abbrev Row := List (ColName × Val)

/-- cell access `row[col]`. -/
def getCell (r : Row) (c : ColName) : Val := (List.lookup c r).getD Val.nan

/-- A loaded CSV table: its column list and its rows. -/
structure CsvTable where
  columns : List ColName
  rows : List Row
deriving DecidableEq

/-- the fixed precedence list of recognized energy column names
(lines 137). -/
def energyColPrecedence : List ColName :=
  [ColName.Energy_eV, ColName.Energy_without_entropy_eV, ColName.Energy_sigma_0_eV]

/-- energy-column resolution (lines 136-140): the first name of the
precedence list present among the table's columns. -/
def findEnergyCol (cols : List ColName) : Option ColName :=
  energyColPrecedence.find? (fun c => cols.contains c)

/-- Python `int()` on a float index cell: truncation toward zero, followed by
the cast into the nonnegative index domain.  On the nonnegative identifiers
of this pipeline truncation coincides with the floor. -/
def pyIntNat (q : ℚ) : ℕ := (Rat.floor q).toNat

/-- projection of a non-NaN cell to its rational value. -/
def valNum? : Val → Option ℚ
  | .nan => none
  | .num q => some q

/-- pandas `Series.max()`: maximum over the non-NaN entries, NaN when there
are none. -/
def colMax (vs : List Val) : Val :=
  match vs.filterMap valNum? with
  | [] => Val.nan
  | q :: qs => Val.num (qs.foldl max q)

/-- ordering used by `df.sort_values('Index')`: ascending on values, NaN
placed last. -/
def valLe : Val → Val → Bool
  | .num a, .num b => decide (a ≤ b)
  | .num _, .nan => true
  | .nan, .nan => true
  | .nan, .num _ => false

/-- `create_energies_array_from_csv` (lines 120-176, energies array only;
the metadata dictionary is not modelled).  When an Index column with at
least one non-missing value is present: sort by Index, allocate
`max_index + 1` cells of the fill value, and write each row with non-missing
index and non-missing energy at its integer index.  Otherwise use row order
directly.  The NaN arm of the `max_index` computation is unreachable under
the any-notna guard (Python's `int(nan)` would raise there). -/
def create_energies_array_from_csv (t : CsvTable) (fill_value : Val) :
    Except String (List Val) :=
  match findEnergyCol t.columns with
  | none => .error ("CSV file must contain energy column")
  | some energy_col =>
    if t.columns.contains ColName.Index
        && (t.rows.map (fun r => getCell r ColName.Index)).any Val.notna then
      let sorted := pySorted
        (fun a b => valLe (getCell a ColName.Index) (getCell b ColName.Index))
        t.rows
      let max_index : ℕ :=
        match colMax (sorted.map (fun r => getCell r ColName.Index)) with
        | .num q => pyIntNat q
        | .nan => 0
      let init := List.replicate (max_index + 1) fill_value
      .ok (sorted.foldl
        (fun energies r =>
          match getCell r ColName.Index, getCell r energy_col with
          | .num qi, .num e => energies.set (pyIntNat qi) (Val.num e)
          | _, _ => energies)
        init)
    else
      .ok (t.rows.map (fun r =>
        match getCell r energy_col with
        | .nan => fill_value
        | v => v))

/-- `create_energies_array_direct` (lines 182-252, energies array only; the
metadata dictionary is not modelled).  Directories with the `calc_` name
token are selected; runs whose numeric suffix does not parse are skipped;
the remaining (index, extracted energy) pairs are sorted by index and an
array of `max_index + 1` fill values receives each successfully extracted
energy at its index.  `natMaxList` over the nonempty pair list equals
Python's `max(calc_data, key=...)` because all indices are naturals. -/
def create_energies_array_direct (fs : FileSys) (energy_type : EnergyType)
    (fill_value : Val) : Except String (List Val) :=
  let dirs := fs.filter (fun p => startsWithCalc p.1)
  if dirs.isEmpty then .error ("No calculation directories found")
  else
    let calc_data := dirs.filterMap (fun p =>
      (parseCalcIndex p.1).map
        (fun i => (i, extract_energy_from_outcar p.2 energy_type)))
    let sorted := pySorted (fun a b => decide (a.1 ≤ b.1)) calc_data
    if sorted.isEmpty then .ok []
    else
      let max_index := natMaxList (sorted.map Prod.fst)
      let init := List.replicate (max_index + 1) fill_value
      .ok (sorted.foldl
        (fun energies p =>
          match p.2 with
          | some e => energies.set p.1 (Val.num e)
          | none => energies)
        init)

/-- array-source dispatch of `main` (lines 314-322): a found-and-readable
CSV table takes precedence, and only the direct-extraction path receives the
`--energy-type` flag. -/
def mainCreateArray (csv : Option CsvTable) (fs : FileSys)
    (energy_type : EnergyType) (fill_value : Val) : Except String (List Val) :=
  match csv with
  | some t => create_energies_array_from_csv t fill_value
  | none => create_energies_array_direct fs energy_type fill_value

/-- `np.save`: the persisted `.npy` artifact holds exactly the written array.
The NumPy binary codec is external to the repository and is modelled as the
faithful store the spec's round-trip law describes. -/
def npSave (arr : List Val) : List Val := arr

/-- `np.load` of the stored artifact. -/
def npLoad (stored : List Val) : List Val := stored

/-- `np.array_equal` with NaN-aware elementwise equality, which on `Val`
lists is structural equality. -/
def arrayEqualNan (a b : List Val) : Bool := a == b

/-- verification tail of `main` (lines 358-368): the process exit status of
the re-load-and-compare step, 0 when the loaded array matches the in-memory
one and 1 otherwise. -/
def verifyExit (inMem loaded : List Val) : ℕ :=
  if arrayEqualNan inMem loaded then 0 else 1

/-- the cell is missing or holds a nonnegative value: the identifier domain
on which the truncating int conversion and the list-index write model are
faithful to the source (Python would index from the array's end on a
negative identifier). -/
def cellNonneg : Val → Bool
  | .nan => true
  | .num q => decide (0 ≤ q)

/-- the integer identifier a table row carries: its Index cell through the
int conversion, `none` when the cell is missing. -/
def rowIdx (r : Row) : Option ℕ :=
  match getCell r ColName.Index with
  | .num q => some (pyIntNat q)
  | .nan => none

/-- maximum identifier over a table's rows (0 when there is none). -/
def csvMaxIdx (t : CsvTable) : ℕ := natMaxList (t.rows.filterMap rowIdx)

/-- the write one table row contributes to the energies array: its integer
index paired with its energy cell, provided both cells are non-missing. -/
def toWriteCSV (energy_col : ColName) (r : Row) : Option (ℕ × Val) :=
  match getCell r ColName.Index, getCell r energy_col with
  | .num qi, .num e => some (pyIntNat qi, Val.num e)
  | _, _ => none

/-- the write one (index, extracted energy) pair contributes to the energies
array in direct mode: present exactly when extraction succeeded. -/
def toWriteDirect (d : ℕ × Option ℚ) : Option (ℕ × Val) :=
  match d.2 with
  | some e => some (d.1, Val.num e)
  | none => none

/-- maximum parsed identifier over the discovered run directories (0 when
there is none). -/
def fsMaxIdx (fs : FileSys) : ℕ :=
  natMaxList ((fs.filter (fun p => startsWithCalc p.1)).filterMap
    (fun p => parseCalcIndex p.1))

end CreateNpy

/-! Generic lemmas about the write-fold pattern shared by the two assembly
routines, about the stable sort model and about running maxima. -/

/-- a list of indexed writes applied left to right. -/
def applyWrites (ws : List (ℕ × Val)) (init : List Val) : List Val :=
  ws.foldl (fun acc w => acc.set w.1 w.2) init

/-- one step of a running maximum over cells, skipping NaN entries. -/
def valMaxStep (o : Option ℚ) (v : Val) : Option ℚ :=
  match v with
  | .nan => o
  | .num q =>
    match o with
    | none => some q
    | some m => some (max m q)

theorem applyWrites_cons (w : ℕ × Val) (ws : List (ℕ × Val)) (init : List Val) :
    applyWrites (w :: ws) init = applyWrites ws (init.set w.1 w.2) := rfl

theorem length_applyWrites (ws : List (ℕ × Val)) (init : List Val) :
    (applyWrites ws init).length = init.length := by
  induction ws generalizing init with
  | nil => rfl
  | cons w ws ih => rw [applyWrites_cons, ih, List.length_set]

theorem getElem?_applyWrites_of_not_mem (ws : List (ℕ × Val)) (init : List Val)
    (i : ℕ) (h : ∀ w ∈ ws, w.1 ≠ i) :
    (applyWrites ws init)[i]? = init[i]? := by
  induction ws generalizing init with
  | nil => rfl
  | cons w ws ih =>
    rw [applyWrites_cons, ih _ (fun w' hw' => h w' (List.mem_cons_of_mem _ hw'))]
    exact List.getElem?_set_ne (h w (List.mem_cons_self _ _))

theorem getElem?_applyWrites_of_write (ws : List (ℕ × Val)) (init : List Val)
    (i : ℕ) (v : Val) (hlen : i < init.length)
    (hagree : ∀ w ∈ ws, w.1 = i → w.2 = v)
    (hmem : ∃ w ∈ ws, w.1 = i) :
    (applyWrites ws init)[i]? = some v := by
  induction ws generalizing init with
  | nil =>
    obtain ⟨w, hw, _⟩ := hmem
    exact absurd hw (List.not_mem_nil w)
  | cons w ws ih =>
    rw [applyWrites_cons]
    by_cases hi : ∃ w' ∈ ws, w'.1 = i
    · exact ih _ (by rw [List.length_set]; exact hlen)
        (fun w' hw' => hagree w' (List.mem_cons_of_mem _ hw')) hi
    · obtain ⟨w0, hw0, hw0i⟩ := hmem
      rcases List.mem_cons.mp hw0 with h0 | h0
      · subst h0
        rw [getElem?_applyWrites_of_not_mem _ _ _
          (fun w' hw' hwi => hi ⟨w', hw', hwi⟩)]
        have hv : w0.2 = v := hagree w0 (List.mem_cons_self _ _) hw0i
        rw [← hv, ← hw0i]
        exact List.getElem?_set_eq_of_lt _ (by rw [hw0i]; exact hlen)
      · exact absurd ⟨w0, h0, hw0i⟩ hi

theorem foldl_write_eq_applyWrites {α : Type} (f : α → Option (ℕ × Val))
    (l : List α) (init : List Val) :
    l.foldl (fun acc a =>
      match f a with
      | some w => acc.set w.1 w.2
      | none => acc) init
    = applyWrites (l.filterMap f) init := by
  induction l generalizing init with
  | nil => rfl
  | cons a l ih =>
    rw [List.foldl_cons, List.filterMap_cons]
    cases f a with
    | none => exact ih init
    | some w => exact ih _

theorem perm_insertLe {α : Type} (le : α → α → Bool) (a : α) (l : List α) :
    (insertLe le a l).Perm (a :: l) := by
  induction l with
  | nil => exact List.Perm.refl _
  | cons b bs ih =>
    cases h : le a b with
    | true => rw [insertLe, if_pos h]
    | false =>
      rw [insertLe, if_neg (by simp [h])]
      exact (ih.cons b).trans (List.Perm.swap a b bs)

theorem perm_pySorted {α : Type} (le : α → α → Bool) (l : List α) :
    (pySorted le l).Perm l := by
  induction l with
  | nil => exact List.Perm.refl _
  | cons a as ih => exact (perm_insertLe le a _).trans (ih.cons a)

theorem mem_pySorted {α : Type} (le : α → α → Bool) (l : List α) (x : α) :
    x ∈ pySorted le l ↔ x ∈ l :=
  (perm_pySorted le l).mem_iff

theorem le_foldl_max (l : List ℕ) (b : ℕ) : b ≤ l.foldl max b := by
  induction l generalizing b with
  | nil => exact le_refl b
  | cons x xs ih => exact le_trans (le_max_left b x) (ih (max b x))

theorem mem_le_foldl_max {l : List ℕ} {a : ℕ} (b : ℕ) (h : a ∈ l) :
    a ≤ l.foldl max b := by
  induction l generalizing b with
  | nil => cases h
  | cons x xs ih =>
    rcases List.mem_cons.mp h with rfl | h'
    · exact le_trans (le_max_right b a) (le_foldl_max xs (max b a))
    · exact ih (max b x) h'

theorem mem_le_natMaxList {l : List ℕ} {a : ℕ} (h : a ∈ l) : a ≤ natMaxList l :=
  mem_le_foldl_max 0 h

theorem foldl_max_perm {l₁ l₂ : List ℕ} (h : l₁.Perm l₂) (b : ℕ) :
    l₁.foldl max b = l₂.foldl max b :=
  h.foldl_eq' (fun x _ y _ z => by rw [max_assoc, max_comm x y, ← max_assoc]) b

theorem natMaxList_perm {l₁ l₂ : List ℕ} (h : l₁.Perm l₂) :
    natMaxList l₁ = natMaxList l₂ :=
  foldl_max_perm h 0

theorem natMaxList_cons_head (x : ℕ) (xs : List ℕ) :
    natMaxList (x :: xs) = xs.foldl max x := by
  show (x :: xs).foldl max 0 = xs.foldl max x
  rw [List.foldl_cons, Nat.zero_max]

theorem foldl_valMaxStep_some (vs : List Val) (m : ℚ) :
    vs.foldl valMaxStep (some m) =
      some ((vs.filterMap CreateNpy.valNum?).foldl max m) := by
  induction vs generalizing m with
  | nil => rfl
  | cons v vs ih =>
    cases v with
    | nan => exact ih m
    | num q => exact ih (max m q)

theorem foldl_valMaxStep_none (vs : List Val) :
    vs.foldl valMaxStep none =
      match vs.filterMap CreateNpy.valNum? with
      | [] => none
      | q :: qs => some (qs.foldl max q) := by
  induction vs with
  | nil => rfl
  | cons v vs ih =>
    cases v with
    | nan => exact ih
    | num q => exact foldl_valMaxStep_some vs q

theorem colMax_eq_foldl (vs : List Val) :
    CreateNpy.colMax vs =
      match vs.foldl valMaxStep none with
      | none => Val.nan
      | some m => Val.num m := by
  rw [foldl_valMaxStep_none]
  unfold CreateNpy.colMax
  cases vs.filterMap CreateNpy.valNum? with
  | nil => rfl
  | cons q qs => rfl

theorem valMaxStep_rightComm (z : Option ℚ) (x y : Val) :
    valMaxStep (valMaxStep z x) y = valMaxStep (valMaxStep z y) x := by
  cases x with
  | nan => cases y <;> rfl
  | num a =>
    cases y with
    | nan => rfl
    | num b =>
      cases z with
      | none => show some (max a b) = some (max b a); rw [max_comm]
      | some m =>
        show some (max (max m a) b) = some (max (max m b) a)
        rw [max_assoc, max_comm a b, ← max_assoc]

theorem colMax_perm {vs₁ vs₂ : List Val} (h : vs₁.Perm vs₂) :
    CreateNpy.colMax vs₁ = CreateNpy.colMax vs₂ := by
  rw [colMax_eq_foldl, colMax_eq_foldl,
    h.foldl_eq' (fun x _ y _ z => valMaxStep_rightComm z x y) none]

theorem ratFloor_eq_floor (q : ℚ) : Rat.floor q = ⌊q⌋ :=
  (Rat.floor_def' q).trans Rat.floor_def.symm

theorem pyIntNat_mono {a b : ℚ} (h : a ≤ b) :
    CreateNpy.pyIntNat a ≤ CreateNpy.pyIntNat b := by
  unfold CreateNpy.pyIntNat
  rw [ratFloor_eq_floor, ratFloor_eq_floor]
  exact Int.toNat_le_toNat (Int.floor_le_floor h)

theorem pyIntNat_max (a b : ℚ) :
    CreateNpy.pyIntNat (max a b) = max (CreateNpy.pyIntNat a) (CreateNpy.pyIntNat b) := by
  rcases le_total a b with h | h
  · rw [max_eq_right h, max_eq_right (pyIntNat_mono h)]
  · rw [max_eq_left h, max_eq_left (pyIntNat_mono h)]

theorem pyIntNat_foldl_max (qs : List ℚ) (q : ℚ) :
    CreateNpy.pyIntNat (qs.foldl max q) =
      (qs.map CreateNpy.pyIntNat).foldl max (CreateNpy.pyIntNat q) := by
  induction qs generalizing q with
  | nil => rfl
  | cons x xs ih =>
    rw [List.foldl_cons, List.map_cons, List.foldl_cons, ih, pyIntNat_max]

namespace CreateNpy

theorem rowIdx_eq_map (r : Row) :
    rowIdx r = (valNum? (getCell r ColName.Index)).map pyIntNat := by
  unfold rowIdx valNum?
  cases getCell r ColName.Index <;> rfl

theorem csv_code_max (rows : List Row)
    (hsome : (rows.map (fun r => getCell r ColName.Index)).any Val.notna = true) :
    (match colMax (rows.map (fun r => getCell r ColName.Index)) with
      | .num q => pyIntNat q
      | .nan => 0)
    = natMaxList (rows.filterMap rowIdx) := by
  have hqs : (rows.map (fun r => getCell r ColName.Index)).filterMap valNum?
      = rows.filterMap (fun r => valNum? (getCell r ColName.Index)) := by
    rw [List.filterMap_map]
    rfl
  have hne : rows.filterMap (fun r => valNum? (getCell r ColName.Index)) ≠ [] := by
    obtain ⟨v, hv, hvn⟩ := List.any_eq_true.mp hsome
    obtain ⟨r, hr, rfl⟩ := List.mem_map.mp hv
    cases hc : getCell r ColName.Index with
    | nan => rw [hc] at hvn; cases hvn
    | num q =>
      refine List.ne_nil_of_mem (a := q) (List.mem_filterMap.mpr ⟨r, hr, ?_⟩)
      rw [hc]; rfl
  have hmap : rows.filterMap rowIdx
      = (rows.filterMap (fun r => valNum? (getCell r ColName.Index))).map pyIntNat := by
    rw [List.map_filterMap]
    exact List.filterMap_congr (fun r _ => rowIdx_eq_map r)
  unfold colMax
  rw [hqs]
  cases hc : rows.filterMap (fun r => valNum? (getCell r ColName.Index)) with
  | nil => exact absurd hc hne
  | cons q qs =>
    show pyIntNat (qs.foldl max q) = natMaxList (rows.filterMap rowIdx)
    rw [hmap, hc, List.map_cons, natMaxList_cons_head, pyIntNat_foldl_max]

theorem toWriteCSV_some {energy_col : ColName} {r : Row} {w : ℕ × Val}
    (h : toWriteCSV energy_col r = some w) :
    rowIdx r = some w.1 ∧
      ∃ e : ℚ, getCell r energy_col = Val.num e ∧ w.2 = Val.num e := by
  unfold toWriteCSV at h
  cases hI : getCell r ColName.Index with
  | nan => rw [hI] at h; cases h
  | num qi =>
    rw [hI] at h
    cases hE : getCell r energy_col with
    | nan => rw [hE] at h; cases h
    | num e =>
      rw [hE] at h
      cases h
      exact ⟨by unfold rowIdx; rw [hI], e, rfl, rfl⟩

theorem toWriteCSV_of_cells {energy_col : ColName} {r : Row} {qi e : ℚ}
    (hI : getCell r ColName.Index = Val.num qi)
    (hE : getCell r energy_col = Val.num e) :
    toWriteCSV energy_col r = some (pyIntNat qi, Val.num e) := by
  unfold toWriteCSV
  rw [hI, hE]

theorem toWriteCSV_none_of_energy_nan {energy_col : ColName} {r : Row}
    (hE : getCell r energy_col = Val.nan) :
    toWriteCSV energy_col r = none := by
  unfold toWriteCSV
  cases hI : getCell r ColName.Index with
  | nan => rfl
  | num qi => rw [hE]

theorem toWriteDirect_some {d : ℕ × Option ℚ} {w : ℕ × Val}
    (h : toWriteDirect d = some w) :
    ∃ e : ℚ, d.2 = some e ∧ w = (d.1, Val.num e) := by
  unfold toWriteDirect at h
  cases hd : d.2 with
  | none => rw [hd] at h; cases h
  | some e =>
    rw [hd] at h
    cases h
    exact ⟨e, rfl, rfl⟩

theorem rowIdx_some {r : Row} {i : ℕ} (h : rowIdx r = some i) :
    ∃ qi : ℚ, getCell r ColName.Index = Val.num qi ∧ pyIntNat qi = i := by
  unfold rowIdx at h
  cases hc : getCell r ColName.Index with
  | nan => rw [hc] at h; cases h
  | num q => rw [hc] at h; cases h; exact ⟨q, rfl, rfl⟩

theorem csv_fold_body_eq (energy_col : ColName) :
    (fun (energies : List Val) (r : Row) =>
      match getCell r ColName.Index, getCell r energy_col with
      | .num qi, .num e => energies.set (pyIntNat qi) (Val.num e)
      | _, _ => energies)
    = (fun energies r =>
      match toWriteCSV energy_col r with
      | some w => energies.set w.1 w.2
      | none => energies) := by
  funext energies r
  unfold toWriteCSV
  cases getCell r ColName.Index <;> cases getCell r energy_col <;> rfl

end CreateNpy

theorem any_perm {α : Type} {l₁ l₂ : List α} (h : l₁.Perm l₂) (p : α → Bool) :
    l₁.any p = l₂.any p := by
  rw [Bool.eq_iff_iff]
  simp only [List.any_eq_true]
  exact ⟨fun ⟨x, hx, hp⟩ => ⟨x, h.mem_iff.mp hx, hp⟩,
    fun ⟨x, hx, hp⟩ => ⟨x, h.mem_iff.mpr hx, hp⟩⟩

theorem getElem?_replicate_of_lt {n i : ℕ} {a : Val} (h : i < n) :
    (List.replicate n a)[i]? = some a := by
  simp [List.getElem?_replicate, h]

namespace CreateNpy

theorem create_csv_eq (t : CsvTable) (fill_value : Val) (energy_col : ColName)
    (hcol : findEnergyCol t.columns = some energy_col)
    (hcond : (t.columns.contains ColName.Index
      && (t.rows.map (fun r => getCell r ColName.Index)).any Val.notna) = true) :
    create_energies_array_from_csv t fill_value =
      .ok (applyWrites
        ((pySorted (fun a b =>
            valLe (getCell a ColName.Index) (getCell b ColName.Index))
          t.rows).filterMap (toWriteCSV energy_col))
        (List.replicate
          ((match colMax ((pySorted (fun a b =>
                valLe (getCell a ColName.Index) (getCell b ColName.Index))
              t.rows).map (fun r => getCell r ColName.Index)) with
            | .num q => pyIntNat q
            | .nan => 0) + 1) fill_value)) := by
  unfold create_energies_array_from_csv
  simp only [hcol, hcond, if_true]
  rw [csv_fold_body_eq, foldl_write_eq_applyWrites]

theorem csv_assembly_spec (t : CsvTable) (fill_value : Val) (energy_col : ColName)
    (hcol : findEnergyCol t.columns = some energy_col)
    (hidx : t.columns.contains ColName.Index = true)
    (hsome : (t.rows.map (fun r => getCell r ColName.Index)).any Val.notna = true)
    (hnn : ∀ r ∈ t.rows, cellNonneg (getCell r ColName.Index) = true)
    (huniq : ∀ r₁ ∈ t.rows, ∀ r₂ ∈ t.rows,
      rowIdx r₁ = rowIdx r₂ → rowIdx r₁ ≠ none → r₁ = r₂) :
    ∃ arr : List Val,
      create_energies_array_from_csv t fill_value = .ok arr
      ∧ arr.length = csvMaxIdx t + 1
      ∧ (∀ r ∈ t.rows, ∀ i : ℕ, rowIdx r = some i →
          ∀ e : ℚ, getCell r energy_col = Val.num e → arr[i]? = some (Val.num e))
      ∧ (∀ i ≤ csvMaxIdx t, (∀ r ∈ t.rows, rowIdx r ≠ some i) →
          arr[i]? = some fill_value)
      ∧ (∀ r ∈ t.rows, ∀ i : ℕ, rowIdx r = some i →
          getCell r energy_col = Val.nan → arr[i]? = some fill_value) := by
  have hcond : (t.columns.contains ColName.Index
      && (t.rows.map (fun r => getCell r ColName.Index)).any Val.notna) = true := by
    rw [hidx, hsome]; rfl
  have heq := create_csv_eq t fill_value energy_col hcol hcond
  have hperm := perm_pySorted (fun a b =>
    valLe (getCell a ColName.Index) (getCell b ColName.Index)) t.rows
  generalize hS : pySorted (fun a b =>
    valLe (getCell a ColName.Index) (getCell b ColName.Index)) t.rows = S at heq hperm
  have hsomeS : (S.map (fun r => getCell r ColName.Index)).any Val.notna = true := by
    rw [any_perm (hperm.map (fun r => getCell r ColName.Index)) Val.notna]
    exact hsome
  have hM : (match colMax (S.map (fun r => getCell r ColName.Index)) with
      | .num q => pyIntNat q
      | .nan => 0) = csvMaxIdx t := by
    rw [csv_code_max S hsomeS]
    exact natMaxList_perm (hperm.filterMap rowIdx)
  refine ⟨_, heq, ?_, ?_, ?_, ?_⟩
  · rw [length_applyWrites, List.length_replicate, hM]
  · intro r hr i hri e he
    obtain ⟨qi, hqi, hpyi⟩ := rowIdx_some hri
    have hiw : toWriteCSV energy_col r = some (i, Val.num e) := by
      rw [toWriteCSV_of_cells hqi he, hpyi]
    have hile : i ≤ csvMaxIdx t :=
      mem_le_natMaxList (List.mem_filterMap.mpr ⟨r, hr, hri⟩)
    apply getElem?_applyWrites_of_write
    · rw [List.length_replicate, hM]
      exact Nat.lt_succ_of_le hile
    · intro w hw hwi
      obtain ⟨r', hr'S, hr'w⟩ := List.mem_filterMap.mp hw
      have hr'mem : r' ∈ t.rows := hperm.mem_iff.mp hr'S
      obtain ⟨hridx', e', he', hw2⟩ := toWriteCSV_some hr'w
      have hsame : rowIdx r' = rowIdx r := by rw [hridx', hwi, hri]
      have hrr : r' = r := huniq r' hr'mem r hr hsame
        (by rw [hridx']; exact Option.some_ne_none _)
      subst hrr
      rw [he] at he'
      cases he'
      exact hw2
    · exact ⟨(i, Val.num e),
        List.mem_filterMap.mpr ⟨r, hperm.mem_iff.mpr hr, hiw⟩, rfl⟩
  · intro i hile hno
    have hnw : ∀ w ∈ S.filterMap (toWriteCSV energy_col), w.1 ≠ i := by
      intro w hw hwi
      obtain ⟨r', hr'S, hr'w⟩ := List.mem_filterMap.mp hw
      obtain ⟨hridx', _⟩ := toWriteCSV_some hr'w
      exact hno r' (hperm.mem_iff.mp hr'S) (by rw [hridx', hwi])
    rw [getElem?_applyWrites_of_not_mem _ _ _ hnw]
    exact getElem?_replicate_of_lt (by rw [hM]; exact Nat.lt_succ_of_le hile)
  · intro r hr i hri hnan
    have hile : i ≤ csvMaxIdx t :=
      mem_le_natMaxList (List.mem_filterMap.mpr ⟨r, hr, hri⟩)
    have hnw : ∀ w ∈ S.filterMap (toWriteCSV energy_col), w.1 ≠ i := by
      intro w hw hwi
      obtain ⟨r', hr'S, hr'w⟩ := List.mem_filterMap.mp hw
      obtain ⟨hridx', _⟩ := toWriteCSV_some hr'w
      have hsame : rowIdx r' = rowIdx r := by rw [hridx', hwi, hri]
      have hrr : r' = r := huniq r' (hperm.mem_iff.mp hr'S) r hr hsame
        (by rw [hridx']; exact Option.some_ne_none _)
      subst hrr
      rw [toWriteCSV_none_of_energy_nan hnan] at hr'w
      cases hr'w
    rw [getElem?_applyWrites_of_not_mem _ _ _ hnw]
    exact getElem?_replicate_of_lt (by rw [hM]; exact Nat.lt_succ_of_le hile)

theorem direct_fold_body_eq :
    (fun (energies : List Val) (p : ℕ × Option ℚ) =>
      match p.2 with
      | some e => energies.set p.1 (Val.num e)
      | none => energies)
    = (fun energies d =>
      match toWriteDirect d with
      | some w => energies.set w.1 w.2
      | none => energies) := by
  funext energies d
  unfold toWriteDirect
  cases d.2 <;> rfl

theorem dataF_some {p : DirName × Outcar} {energy_type : EnergyType}
    {d : ℕ × Option ℚ}
    (h : (parseCalcIndex p.1).map
      (fun i => (i, extract_energy_from_outcar p.2 energy_type)) = some d) :
    parseCalcIndex p.1 = some d.1
      ∧ d.2 = extract_energy_from_outcar p.2 energy_type := by
  cases hp : parseCalcIndex p.1 with
  | none => rw [hp] at h; cases h
  | some i => rw [hp] at h; cases h; exact ⟨rfl, rfl⟩

theorem create_direct_eq (fs : FileSys) (energy_type : EnergyType)
    (fill_value : Val)
    (hne : (fs.filter (fun p => startsWithCalc p.1)).isEmpty = false)
    (hsne : (pySorted (fun a b => decide (a.1 ≤ b.1))
        ((fs.filter (fun p => startsWithCalc p.1)).filterMap (fun p =>
          (parseCalcIndex p.1).map
            (fun i => (i, extract_energy_from_outcar p.2 energy_type))))).isEmpty
      = false) :
    create_energies_array_direct fs energy_type fill_value =
      .ok (applyWrites
        ((pySorted (fun a b => decide (a.1 ≤ b.1))
          ((fs.filter (fun p => startsWithCalc p.1)).filterMap (fun p =>
            (parseCalcIndex p.1).map
              (fun i => (i, extract_energy_from_outcar p.2 energy_type))))).filterMap
          toWriteDirect)
        (List.replicate
          (natMaxList ((pySorted (fun a b => decide (a.1 ≤ b.1))
            ((fs.filter (fun p => startsWithCalc p.1)).filterMap (fun p =>
              (parseCalcIndex p.1).map
                (fun i => (i, extract_energy_from_outcar p.2 energy_type))))).map
            Prod.fst) + 1)
          fill_value)) := by
  unfold create_energies_array_direct
  simp only [hne, hsne, Bool.false_eq_true, if_false]
  rw [direct_fold_body_eq, foldl_write_eq_applyWrites]

theorem direct_assembly_spec (fs : FileSys) (energy_type : EnergyType)
    (fill_value : Val)
    (hne : (fs.filter (fun p => startsWithCalc p.1)).isEmpty = false)
    (hparse : ∃ p ∈ fs.filter (fun p => startsWithCalc p.1),
      parseCalcIndex p.1 ≠ none)
    (huniq : ∀ p₁ ∈ fs.filter (fun p => startsWithCalc p.1),
      ∀ p₂ ∈ fs.filter (fun p => startsWithCalc p.1),
      parseCalcIndex p₁.1 = parseCalcIndex p₂.1 →
      parseCalcIndex p₁.1 ≠ none → p₁ = p₂) :
    ∃ arr : List Val,
      create_energies_array_direct fs energy_type fill_value = .ok arr
      ∧ arr.length = fsMaxIdx fs + 1
      ∧ (∀ p ∈ fs.filter (fun p => startsWithCalc p.1), ∀ i : ℕ,
          parseCalcIndex p.1 = some i →
          ∀ e : ℚ, extract_energy_from_outcar p.2 energy_type = some e →
          arr[i]? = some (Val.num e))
      ∧ (∀ i ≤ fsMaxIdx fs,
          (∀ p ∈ fs.filter (fun p => startsWithCalc p.1),
            parseCalcIndex p.1 ≠ some i) →
          arr[i]? = some fill_value)
      ∧ (∀ p ∈ fs.filter (fun p => startsWithCalc p.1), ∀ i : ℕ,
          parseCalcIndex p.1 = some i →
          extract_energy_from_outcar p.2 energy_type = none →
          arr[i]? = some fill_value) := by
  have hdmem : ∃ d, d ∈ (fs.filter (fun p => startsWithCalc p.1)).filterMap
      (fun p => (parseCalcIndex p.1).map
        (fun i => (i, extract_energy_from_outcar p.2 energy_type))) := by
    obtain ⟨p, hp, hpp⟩ := hparse
    cases hpi : parseCalcIndex p.1 with
    | none => exact absurd hpi hpp
    | some i =>
      exact ⟨(i, extract_energy_from_outcar p.2 energy_type),
        List.mem_filterMap.mpr ⟨p, hp, by rw [hpi]; rfl⟩⟩
  have hperm := perm_pySorted (fun (a b : ℕ × Option ℚ) => decide (a.1 ≤ b.1))
    ((fs.filter (fun p => startsWithCalc p.1)).filterMap
      (fun p => (parseCalcIndex p.1).map
        (fun i => (i, extract_energy_from_outcar p.2 energy_type))))
  have hsne : (pySorted (fun (a b : ℕ × Option ℚ) => decide (a.1 ≤ b.1))
      ((fs.filter (fun p => startsWithCalc p.1)).filterMap
        (fun p => (parseCalcIndex p.1).map
          (fun i => (i, extract_energy_from_outcar p.2 energy_type))))).isEmpty
      = false := by
    rw [List.isEmpty_eq_false]
    intro hnil
    obtain ⟨d, hd⟩ := hdmem
    rw [← hperm.mem_iff, hnil] at hd
    exact List.not_mem_nil d hd
  have heq := create_direct_eq fs energy_type fill_value hne hsne
  generalize hS : pySorted (fun (a b : ℕ × Option ℚ) => decide (a.1 ≤ b.1))
    ((fs.filter (fun p => startsWithCalc p.1)).filterMap
      (fun p => (parseCalcIndex p.1).map
        (fun i => (i, extract_energy_from_outcar p.2 energy_type)))) = S
    at heq hperm
  have hproj : ((fs.filter (fun p => startsWithCalc p.1)).filterMap
      (fun p => (parseCalcIndex p.1).map
        (fun i => (i, extract_energy_from_outcar p.2 energy_type)))).map Prod.fst
      = (fs.filter (fun p => startsWithCalc p.1)).filterMap
        (fun p => parseCalcIndex p.1) := by
    rw [List.map_filterMap]
    refine List.filterMap_congr (fun p _ => ?_)
    cases parseCalcIndex p.1 <;> rfl
  have hM : natMaxList (S.map Prod.fst) = fsMaxIdx fs := by
    rw [natMaxList_perm (hperm.map Prod.fst), hproj]
    rfl
  refine ⟨_, heq, ?_, ?_, ?_, ?_⟩
  · rw [length_applyWrites, List.length_replicate, hM]
  · intro p hp i hpi e he
    have hdval : (parseCalcIndex p.1).map
        (fun j => (j, extract_energy_from_outcar p.2 energy_type))
        = some (i, some e) := by
      rw [hpi, he]
      rfl
    have hdmem2 : ((i : ℕ), (some e : Option ℚ)) ∈
        ((fs.filter (fun p => startsWithCalc p.1)).filterMap
          (fun p => (parseCalcIndex p.1).map
            (fun i => (i, extract_energy_from_outcar p.2 energy_type)))) :=
      List.mem_filterMap.mpr ⟨p, hp, hdval⟩
    have hile : i ≤ fsMaxIdx fs :=
      mem_le_natMaxList (List.mem_filterMap.mpr ⟨p, hp, hpi⟩)
    apply getElem?_applyWrites_of_write
    · rw [List.length_replicate, hM]
      exact Nat.lt_succ_of_le hile
    · intro w hw hwi
      obtain ⟨d', hd'S, hd'w⟩ := List.mem_filterMap.mp hw
      obtain ⟨p', hp', hp'd⟩ :=
        List.mem_filterMap.mp (hperm.mem_iff.mp hd'S)
      obtain ⟨hp'i, hp'e⟩ := dataF_some hp'd
      obtain ⟨e', he', hwe⟩ := toWriteDirect_some hd'w
      have hpi' : parseCalcIndex p'.1 = some i := by
        rw [hp'i]
        rw [hwe] at hwi
        rw [hwi]
      have hpp : p' = p := huniq p' hp' p hp (by rw [hpi', hpi])
        (by rw [hpi']; exact Option.some_ne_none _)
      subst hpp
      rw [← hp'e, he'] at he
      cases he
      rw [hwe]
    · exact ⟨(i, Val.num e),
        List.mem_filterMap.mpr ⟨(i, some e), hperm.mem_iff.mpr hdmem2, rfl⟩,
        rfl⟩
  · intro i hile hno
    have hnw : ∀ w ∈ S.filterMap toWriteDirect, w.1 ≠ i := by
      intro w hw hwi
      obtain ⟨d', hd'S, hd'w⟩ := List.mem_filterMap.mp hw
      obtain ⟨p', hp', hp'd⟩ :=
        List.mem_filterMap.mp (hperm.mem_iff.mp hd'S)
      obtain ⟨hp'i, _⟩ := dataF_some hp'd
      obtain ⟨e', _, hwe⟩ := toWriteDirect_some hd'w
      refine hno p' hp' ?_
      rw [hp'i]
      rw [hwe] at hwi
      rw [hwi]
    rw [getElem?_applyWrites_of_not_mem _ _ _ hnw]
    exact getElem?_replicate_of_lt (by rw [hM]; exact Nat.lt_succ_of_le hile)
  · intro p hp i hpi hnone
    have hile : i ≤ fsMaxIdx fs :=
      mem_le_natMaxList (List.mem_filterMap.mpr ⟨p, hp, hpi⟩)
    have hnw : ∀ w ∈ S.filterMap toWriteDirect, w.1 ≠ i := by
      intro w hw hwi
      obtain ⟨d', hd'S, hd'w⟩ := List.mem_filterMap.mp hw
      obtain ⟨p', hp', hp'd⟩ :=
        List.mem_filterMap.mp (hperm.mem_iff.mp hd'S)
      obtain ⟨hp'i, hp'e⟩ := dataF_some hp'd
      obtain ⟨e', he', hwe⟩ := toWriteDirect_some hd'w
      have hpi' : parseCalcIndex p'.1 = some i := by
        rw [hp'i]
        rw [hwe] at hwi
        rw [hwi]
      have hpp : p' = p := huniq p' hp' p hp (by rw [hpi', hpi])
        (by rw [hpi']; exact Option.some_ne_none _)
      subst hpp
      rw [hnone] at hp'e
      rw [hp'e] at he'
      cases he'
    rw [getElem?_applyWrites_of_not_mem _ _ _ hnw]
    exact getElem?_replicate_of_lt (by rw [hM]; exact Nat.lt_succ_of_le hile)

end CreateNpy

theorem findallEwe_append (l₁ l₂ : List LogItem) :
    findallEwe (l₁ ++ l₂) = findallEwe l₁ ++ findallEwe l₂ := by
  unfold findallEwe
  rw [List.filterMap_append]

theorem findallSigLoose_append (l₁ l₂ : List LogItem) :
    findallSigLoose (l₁ ++ l₂) = findallSigLoose l₁ ++ findallSigLoose l₂ := by
  unfold findallSigLoose
  rw [List.filterMap_append]

theorem findallSigStrict_append (l₁ l₂ : List LogItem) :
    findallSigStrict (l₁ ++ l₂) = findallSigStrict l₁ ++ findallSigStrict l₂ := by
  unfold findallSigStrict
  rw [List.filterMap_append]

theorem findallEwe_cons_match (n : Numeral) (post : List LogItem)
    (h : matchesLoose n = true) :
    findallEwe (LogItem.ewe n :: post) = n.val :: findallEwe post := by
  unfold findallEwe
  rw [List.filterMap_cons]
  simp [h]

theorem findallSigLoose_cons_match (n : Numeral) (post : List LogItem)
    (h : matchesLoose n = true) :
    findallSigLoose (LogItem.esig n :: post) = n.val :: findallSigLoose post := by
  unfold findallSigLoose
  rw [List.filterMap_cons]
  simp [h]

theorem findallSigStrict_cons_match (n : Numeral) (post : List LogItem)
    (h : matchesStrict n = true) :
    findallSigStrict (LogItem.esig n :: post) = n.val :: findallSigStrict post := by
  unfold findallSigStrict
  rw [List.filterMap_cons]
  simp [h]

theorem getLast?_append_singleton {α : Type} (l : List α) (a : α) :
    (l ++ [a]).getLast? = some a :=
  List.getLast?_concat l

/-! The claim theorems. -/

/-- C2: for every document containing N occurrences (N at least 1) of a
labeled energy pattern — the without-entropy pattern or the sigma->0 pattern
— the parser returns the numerically last occurrence in document order (the
match after which no further match follows); when a pattern has zero matches
the corresponding field is absent (`none`), not zero and not an error.  The
first four parts cover the two fields of the aggregation parser, the fifth
the sigma->0 extraction of the array assembler's parser under its guards. -/
theorem claim_C2 :
    (∀ (sz : ℕ) (pre post : List LogItem) (n : Numeral),
      matchesLoose n = true → findallEwe post = [] →
      (ExtractEnergies.extract_energy_from_outcar
        (some ⟨sz, pre ++ LogItem.ewe n :: post⟩)).energy_without_entropy
        = some n.val)
    ∧ (∀ (sz : ℕ) (pre post : List LogItem) (n : Numeral),
      matchesLoose n = true → findallSigLoose post = [] →
      (ExtractEnergies.extract_energy_from_outcar
        (some ⟨sz, pre ++ LogItem.esig n :: post⟩)).energy_sigma_0
        = some n.val)
    ∧ (∀ (sz : ℕ) (items : List LogItem), findallEwe items = [] →
      (ExtractEnergies.extract_energy_from_outcar
        (some ⟨sz, items⟩)).energy_without_entropy = none
      ∧ (ExtractEnergies.extract_energy_from_outcar
        (some ⟨sz, items⟩)).error = none)
    ∧ (∀ (sz : ℕ) (items : List LogItem), findallSigLoose items = [] →
      (ExtractEnergies.extract_energy_from_outcar
        (some ⟨sz, items⟩)).energy_sigma_0 = none)
    ∧ (∀ (sz : ℕ) (pre post : List LogItem) (n : Numeral),
      1000 ≤ sz → containsAccuracy (pre ++ LogItem.esig n :: post) = true →
      matchesStrict n = true → findallSigStrict post = [] →
      CreateNpy.extract_energy_from_outcar
        (some ⟨sz, pre ++ LogItem.esig n :: post⟩) CreateNpy.EnergyType.sigma0
        = some n.val) := by
  refine ⟨?_, ?_, ?_, ?_, ?_⟩
  · intro sz pre post n hm hpost
    show (findallEwe (pre ++ LogItem.ewe n :: post)).getLast? = some n.val
    rw [findallEwe_append, findallEwe_cons_match n post hm, hpost]
    exact getLast?_append_singleton _ _
  · intro sz pre post n hm hpost
    show (findallSigLoose (pre ++ LogItem.esig n :: post)).getLast? = some n.val
    rw [findallSigLoose_append, findallSigLoose_cons_match n post hm, hpost]
    exact getLast?_append_singleton _ _
  · intro sz items hitems
    constructor
    · show (findallEwe items).getLast? = none
      rw [hitems]
      rfl
    · rfl
  · intro sz items hitems
    show (findallSigLoose items).getLast? = none
    rw [hitems]
    rfl
  · intro sz pre post n hsz hacc hm hpost
    have hsig : findallSigStrict (pre ++ LogItem.esig n :: post)
        = findallSigStrict pre ++ [n.val] := by
      rw [findallSigStrict_append, findallSigStrict_cons_match n post hm, hpost]
    simp only [CreateNpy.extract_energy_from_outcar]
    rw [if_neg (by omega), hacc]
    simp only [Bool.not_true, Bool.false_eq_true, if_false]
    rw [hsig, getLast?_append_singleton]

/-- C2 witness: a converged document with two without-entropy lines, two
sigma->0 lines and trailing noise yields the later value of each pattern,
and an empty document yields absent fields with no error; the assembler's
parser also returns the last sigma->0 value of a guarded document. -/
theorem claim_C2_witness :
    (ExtractEnergies.extract_energy_from_outcar
      (some ⟨5000, [LogItem.ewe ⟨-10, false, true⟩] ++
        LogItem.ewe ⟨-12, false, true⟩ :: [LogItem.accuracy]⟩)).energy_without_entropy
      = some (-12)
    ∧ (ExtractEnergies.extract_energy_from_outcar
      (some ⟨5000, [LogItem.esig ⟨-7, false, true⟩] ++
        LogItem.esig ⟨-9, false, true⟩ :: [LogItem.dav]⟩)).energy_sigma_0
      = some (-9)
    ∧ ((ExtractEnergies.extract_energy_from_outcar
        (some ⟨5000, ([] : List LogItem)⟩)).energy_without_entropy = none
      ∧ (ExtractEnergies.extract_energy_from_outcar
        (some ⟨5000, ([] : List LogItem)⟩)).error = none)
    ∧ (ExtractEnergies.extract_energy_from_outcar
      (some ⟨5000, ([] : List LogItem)⟩)).energy_sigma_0 = none
    ∧ CreateNpy.extract_energy_from_outcar
      (some ⟨5000, [LogItem.accuracy] ++
        LogItem.esig ⟨-9, false, true⟩ :: [LogItem.dav]⟩)
      CreateNpy.EnergyType.sigma0 = some (-9) :=
  ⟨claim_C2.1 5000 [LogItem.ewe ⟨-10, false, true⟩] [LogItem.accuracy]
      ⟨-12, false, true⟩ (by decide) (by decide),
    claim_C2.2.1 5000 [LogItem.esig ⟨-7, false, true⟩] [LogItem.dav]
      ⟨-9, false, true⟩ (by decide) (by decide),
    claim_C2.2.2.1 5000 [] (by decide),
    claim_C2.2.2.2.1 5000 [] (by decide),
    claim_C2.2.2.2.2 5000 [LogItem.accuracy] [LogItem.dav]
      ⟨-9, false, true⟩ (by decide) (by decide) (by decide) (by decide)⟩

/-- C3: the persisted array artifact re-loads to an array elementwise equal
(NaN equal to NaN) to the in-memory one, and the verification step of main
exits with status 0 on a match and status 1 on any mismatch. -/
theorem claim_C3 (arr bad : List Val)
    (h : CreateNpy.arrayEqualNan arr bad = false) :
    CreateNpy.npLoad (CreateNpy.npSave arr) = arr
    ∧ CreateNpy.arrayEqualNan arr (CreateNpy.npLoad (CreateNpy.npSave arr)) = true
    ∧ CreateNpy.verifyExit arr (CreateNpy.npLoad (CreateNpy.npSave arr)) = 0
    ∧ CreateNpy.verifyExit arr bad = 1 := by
  have hself : CreateNpy.arrayEqualNan arr arr = true := by
    simp [CreateNpy.arrayEqualNan]
  refine ⟨rfl, hself, ?_, ?_⟩
  · simp [CreateNpy.verifyExit, CreateNpy.npLoad, CreateNpy.npSave, hself]
  · simp [CreateNpy.verifyExit, h]

/-- C3 witness: a one-element array with a NaN entry round-trips to an
equal array with exit status 0, and a mismatching load exits with 1. -/
theorem claim_C3_witness :
    CreateNpy.arrayEqualNan [Val.nan, Val.num 1] [Val.num 1] = false
    ∧ (CreateNpy.npLoad (CreateNpy.npSave [Val.nan, Val.num 1])
        = [Val.nan, Val.num 1]
      ∧ CreateNpy.arrayEqualNan [Val.nan, Val.num 1]
        (CreateNpy.npLoad (CreateNpy.npSave [Val.nan, Val.num 1])) = true
      ∧ CreateNpy.verifyExit [Val.nan, Val.num 1]
        (CreateNpy.npLoad (CreateNpy.npSave [Val.nan, Val.num 1])) = 0
      ∧ CreateNpy.verifyExit [Val.nan, Val.num 1] [Val.num 1] = 1) :=
  ⟨rfl, claim_C3 [Val.nan, Val.num 1] [Val.num 1] rfl⟩

/-- C7: a run's record is classified Success exactly when the
without-entropy (primary) energy is present, and Failed exactly when it is
absent; no other field enters the classification. -/
theorem claim_C7 (name : DirName) (oc : Outcar) :
    ((ExtractEnergies.makeRow name oc).Status = ExtractEnergies.RunStatus.Success
      ↔ (ExtractEnergies.makeRow name oc).Energy_without_entropy_eV ≠ none)
    ∧ ((ExtractEnergies.makeRow name oc).Status = ExtractEnergies.RunStatus.Failed
      ↔ (ExtractEnergies.makeRow name oc).Energy_without_entropy_eV = none) := by
  simp only [ExtractEnergies.makeRow]
  cases h : (ExtractEnergies.extract_energy_from_outcar oc).energy_without_entropy with
  | none => simp [h]
  | some e => simp [h]

/-- C8 counterexample: an Excel write that fails with an exception other
than ImportError is fatal with no fallback artifact at all, and the
ImportError fallback persists no summary artifact when no run succeeded —
against the claim that any rich-write failure falls back and always persists
the auxiliary summary artifact. -/
theorem claim_C8_counterexample :
    ExtractEnergies.saveResults ExtractEnergies.ExcelAttempt.failOther false 1 0
      = .error ("excel write failed")
    ∧ ExtractEnergies.saveResults ExtractEnergies.ExcelAttempt.importError false 0 1
      = .ok [ExtractEnergies.Artifact.csvMain] :=
  ⟨rfl, rfl⟩

/-- C8 amended: only when the rich multi-sheet writer is unavailable
(ImportError) does the Exporter fall back to the flat single-table format,
persisting the auxiliary summary artifact exactly when at least one run
succeeded; any other failure of the rich write, and failure of the fallback
itself, is fatal to the Exporter invocation. -/
theorem claim_C8_amended (nSuccess nFailed : ℕ) :
    ExtractEnergies.saveResults ExtractEnergies.ExcelAttempt.importError false
        nSuccess nFailed
      = .ok ([ExtractEnergies.Artifact.csvMain]
        ++ (if 0 < nSuccess then [ExtractEnergies.Artifact.csvSummary] else []))
    ∧ ExtractEnergies.saveResults ExtractEnergies.ExcelAttempt.importError true
        nSuccess nFailed
      = .error ("csv write failed")
    ∧ ExtractEnergies.saveResults ExtractEnergies.ExcelAttempt.failOther false
        nSuccess nFailed
      = .error ("excel write failed") :=
  ⟨rfl, rfl, rfl⟩

/-- C9: in CSV mode the assembled array does not depend on the energy-type
flag — the dispatch passes the flag only to direct extraction — and the
energy column is resolved solely by the fixed precedence list. -/
theorem claim_C9 (t : CreateNpy.CsvTable) (fs : FileSys) (fill_value : Val)
    (et₁ et₂ : CreateNpy.EnergyType) :
    CreateNpy.mainCreateArray (some t) fs et₁ fill_value
      = CreateNpy.mainCreateArray (some t) fs et₂ fill_value
    ∧ CreateNpy.findEnergyCol t.columns
      = CreateNpy.energyColPrecedence.find? (fun c => t.columns.contains c) :=
  ⟨rfl, rfl⟩

/-- C10: when the calculations directory holds no subdirectory with the
calc name marker, the Aggregator's main raises (the Status column access on
the empty, column-less frame) instead of producing an empty table. -/
theorem claim_C10 (fs : FileSys)
    (h : fs.filter (fun p => startsWithCalc p.1) = []) :
    ExtractEnergies.mainStats fs = .error ("KeyError: Status") := by
  have hrows : ExtractEnergies.results fs = [] := by
    unfold ExtractEnergies.results ExtractEnergies.calc_dirs
    rw [h]
    rfl
  unfold ExtractEnergies.mainStats
  rw [hrows]
  rfl

/-- C10 witness: a base directory holding one subdirectory not named with
the calc marker makes the Aggregator's main raise. -/
theorem claim_C10_witness :
    ExtractEnergies.mainStats [([[102, 111, 111]], none)]
      = .error ("KeyError: Status") :=
  claim_C10 [([[102, 111, 111]], none)] rfl

/-- C4 counterexample: on a 2000-byte document lacking the convergence
marker but containing one sigma->0 line, the Aggregator records that energy
in its sigma->0 field while sigma0-mode direct extraction places only the
fill value in the array — the two derivations differ beyond the choice of a
single energy type. -/
theorem claim_C4_counterexample :
    (ExtractEnergies.extract_energy_from_outcar
      (some ⟨2000, [LogItem.esig ⟨-5, false, true⟩]⟩)).energy_sigma_0
      = some (-5)
    ∧ CreateNpy.create_energies_array_direct
        [([calcWord, [48]], some ⟨2000, [LogItem.esig ⟨-5, false, true⟩]⟩)]
        CreateNpy.EnergyType.sigma0 Val.nan
      = .ok [Val.nan]
    ∧ Val.nan ≠ Val.num (-5) :=
  ⟨rfl, rfl, by decide⟩

/-- C4 amended: direct extraction re-derives the identifier exactly as the
Aggregator does, but guards the energy further: when the document is at
least 1000 bytes, contains the convergence marker, and its sigma->0
occurrences are matched identically by the two scripts' patterns with at
least one match, sigma0-mode direct extraction yields exactly the
Aggregator's sigma->0 energy field. -/
theorem claim_C4_amended (name : DirName) (oc : OutcarFile)
    (hsz : 1000 ≤ oc.size)
    (hacc : containsAccuracy oc.items = true)
    (heq : findallSigStrict oc.items = findallSigLoose oc.items)
    (hne : findallSigStrict oc.items ≠ []) :
    CreateNpy.extract_energy_from_outcar (some oc) CreateNpy.EnergyType.sigma0
      = (ExtractEnergies.extract_energy_from_outcar (some oc)).energy_sigma_0
    ∧ (ExtractEnergies.makeRow name (some oc)).Index = parseCalcIndex name := by
  refine ⟨?_, rfl⟩
  obtain ⟨v, hv⟩ : ∃ v, (findallSigStrict oc.items).getLast? = some v := by
    cases hl : (findallSigStrict oc.items).getLast? with
    | none => exact absurd (List.getLast?_eq_none_iff.mp hl) hne
    | some v => exact ⟨v, rfl⟩
  have h4 : (ExtractEnergies.extract_energy_from_outcar (some oc)).energy_sigma_0
      = some v := by
    show (findallSigLoose oc.items).getLast? = some v
    rw [← heq]
    exact hv
  rw [h4]
  simp only [CreateNpy.extract_energy_from_outcar]
  rw [if_neg (by omega), hacc]
  simp only [Bool.not_true, Bool.false_eq_true, if_false]
  rw [hv]

/-- C4 witness: on a 1500-byte converged document with one sigma->0 line,
the assembler's parser and the Aggregator's sigma->0 field agree, as does
the identifier derivation. -/
theorem claim_C4_witness :
    CreateNpy.extract_energy_from_outcar
        (some ⟨1500, [LogItem.accuracy, LogItem.esig ⟨-5, false, true⟩]⟩)
        CreateNpy.EnergyType.sigma0
      = (ExtractEnergies.extract_energy_from_outcar
        (some ⟨1500, [LogItem.accuracy, LogItem.esig ⟨-5, false, true⟩]⟩)).energy_sigma_0
    ∧ (ExtractEnergies.makeRow [calcWord, [48]]
        (some ⟨1500, [LogItem.accuracy, LogItem.esig ⟨-5, false, true⟩]⟩)).Index
      = parseCalcIndex [calcWord, [48]] :=
  claim_C4_amended [calcWord, [48]]
    ⟨1500, [LogItem.accuracy, LogItem.esig ⟨-5, false, true⟩]⟩
    (by decide) (by decide) (by decide) (by decide)

/-- C5 counterexample: a run directory named with an unparseable suffix is
not excluded — the Aggregator emits a full row for it with a null
identifier (and, here, a Success status from its parsed energy). -/
theorem claim_C5_counterexample :
    ExtractEnergies.results
        [([calcWord, [97, 98, 99]],
          some ⟨2000, [LogItem.ewe ⟨-1, false, true⟩]⟩)]
      = [{ Calculation := [calcWord, [97, 98, 99]]
           Index := none
           Energy_without_entropy_eV := some (-1)
           Energy_sigma_0_eV := none
           Converged := false
           Electronic_steps := 0
           Ionic_steps := 0
           CPU_time_sec := none
           Status := ExtractEnergies.RunStatus.Success
           Error := none }] := rfl

/-- C5 amended: the Aggregator keeps exactly one row per discovered
directory, storing a null identifier when the suffix is unparseable (the
scan is not aborted); it is the array assembler's direct mode that excludes
such runs from the data it assembles. -/
theorem claim_C5_amended (fs : FileSys) (name : DirName) (oc : Outcar)
    (energy_type : CreateNpy.EnergyType) (fill_value : Val)
    (hs : startsWithCalc name = true)
    (hp : parseCalcIndex name = none) :
    (ExtractEnergies.results fs).length
      = (fs.filter (fun p => startsWithCalc p.1)).length
    ∧ (ExtractEnergies.makeRow name oc).Index = none
    ∧ CreateNpy.create_energies_array_direct [(name, oc)] energy_type fill_value
      = .ok [] := by
  refine ⟨?_, hp, ?_⟩
  · unfold ExtractEnergies.results ExtractEnergies.calc_dirs
    rw [List.length_map]
    exact (perm_pySorted _ _).length_eq
  · simp [CreateNpy.create_energies_array_direct, hs, hp, pySorted]

/-- C5 witness: a single directory with alphabetic suffix still yields one
Aggregator row (with null identifier), while direct assembly excludes it
and returns the empty array. -/
theorem claim_C5_witness :
    (ExtractEnergies.results [([calcWord, [97, 98, 99]], none)]).length
      = ([([calcWord, [97, 98, 99]], (none : Outcar))].filter
          (fun p => startsWithCalc p.1)).length
    ∧ (ExtractEnergies.makeRow [calcWord, [97, 98, 99]] none).Index = none
    ∧ CreateNpy.create_energies_array_direct
        [([calcWord, [97, 98, 99]], none)]
        CreateNpy.EnergyType.sigma0 Val.nan = .ok [] :=
  claim_C5_amended [([calcWord, [97, 98, 99]], none)] [calcWord, [97, 98, 99]]
    none CreateNpy.EnergyType.sigma0 Val.nan (by decide) (by decide)

/-- C6 counterexample: the aggregation pipeline's parser has no byte-size
threshold — a 500-byte document carrying an energy line parses to a present
primary energy and the run is classified Success, not Failed. -/
theorem claim_C6_counterexample :
    (ExtractEnergies.makeRow [calcWord, [48]]
        (some ⟨500, [LogItem.ewe ⟨-1, false, true⟩]⟩)).Status
      = ExtractEnergies.RunStatus.Success
    ∧ (ExtractEnergies.makeRow [calcWord, [48]]
        (some ⟨500, [LogItem.ewe ⟨-1, false, true⟩]⟩)).Energy_without_entropy_eV
      = some (-1) :=
  ⟨rfl, rfl⟩

/-- C6 amended: the minimum-size guard lives in the array assembler's
direct-extraction parser, where a missing or sub-1000-byte document yields
no energy; the aggregation pipeline's parser guards only existence, so a
missing document gives a Failed run with absent primary energy and the
error recorded rather than raised. -/
theorem claim_C6_amended (sz : ℕ) (items : List LogItem)
    (energy_type : CreateNpy.EnergyType) (name : DirName)
    (hsz : sz < 1000) :
    CreateNpy.extract_energy_from_outcar (some ⟨sz, items⟩) energy_type = none
    ∧ CreateNpy.extract_energy_from_outcar none energy_type = none
    ∧ (ExtractEnergies.makeRow name none).Status
      = ExtractEnergies.RunStatus.Failed
    ∧ (ExtractEnergies.makeRow name none).Energy_without_entropy_eV = none
    ∧ (ExtractEnergies.makeRow name none).Error = some ("OUTCAR not found") := by
  refine ⟨?_, rfl, rfl, rfl, rfl⟩
  simp only [CreateNpy.extract_energy_from_outcar]
  rw [if_pos hsz]

/-- C6 witness: a 500-byte document — even converged and with a sigma->0
line — yields no energy from the assembler's parser, and a missing document
yields a Failed row with no exception. -/
theorem claim_C6_witness :
    CreateNpy.extract_energy_from_outcar
        (some ⟨500, [LogItem.accuracy, LogItem.esig ⟨-5, false, true⟩]⟩)
        CreateNpy.EnergyType.sigma0 = none
    ∧ CreateNpy.extract_energy_from_outcar none CreateNpy.EnergyType.sigma0
      = none
    ∧ (ExtractEnergies.makeRow [calcWord, [48]] none).Status
      = ExtractEnergies.RunStatus.Failed
    ∧ (ExtractEnergies.makeRow [calcWord, [48]] none).Energy_without_entropy_eV
      = none
    ∧ (ExtractEnergies.makeRow [calcWord, [48]] none).Error
      = some ("OUTCAR not found") :=
  claim_C6_amended 500 [LogItem.accuracy, LogItem.esig ⟨-5, false, true⟩]
    CreateNpy.EnergyType.sigma0 [calcWord, [48]] (by decide)

/-- C1: for every aggregate table whose identifier column has at least one
non-missing value — identifiers unique and in the nonnegative identifier
domain — the assembled energy array has length `max(identifier) + 1`, the
value at position i is the selected energy of the row with identifier i,
and every position with no matching identifier, or whose energy value is
missing, holds the configured fill value exactly (structural `Val` equality
is NaN-aware, covering a NaN fill value); the same holds for assembly
directly from run directories. -/
theorem claim_C1 :
    (∀ (t : CreateNpy.CsvTable) (fill_value : Val)
        (energy_col : CreateNpy.ColName),
      CreateNpy.findEnergyCol t.columns = some energy_col →
      t.columns.contains CreateNpy.ColName.Index = true →
      (t.rows.map (fun r => CreateNpy.getCell r CreateNpy.ColName.Index)).any
        Val.notna = true →
      (∀ r ∈ t.rows,
        CreateNpy.cellNonneg (CreateNpy.getCell r CreateNpy.ColName.Index)
          = true) →
      (∀ r₁ ∈ t.rows, ∀ r₂ ∈ t.rows,
        CreateNpy.rowIdx r₁ = CreateNpy.rowIdx r₂ →
        CreateNpy.rowIdx r₁ ≠ none → r₁ = r₂) →
      ∃ arr : List Val,
        CreateNpy.create_energies_array_from_csv t fill_value = .ok arr
        ∧ arr.length = CreateNpy.csvMaxIdx t + 1
        ∧ (∀ r ∈ t.rows, ∀ i : ℕ, CreateNpy.rowIdx r = some i →
            ∀ e : ℚ, CreateNpy.getCell r energy_col = Val.num e →
            arr[i]? = some (Val.num e))
        ∧ (∀ i ≤ CreateNpy.csvMaxIdx t,
            (∀ r ∈ t.rows, CreateNpy.rowIdx r ≠ some i) →
            arr[i]? = some fill_value)
        ∧ (∀ r ∈ t.rows, ∀ i : ℕ, CreateNpy.rowIdx r = some i →
            CreateNpy.getCell r energy_col = Val.nan →
            arr[i]? = some fill_value))
    ∧ (∀ (fs : FileSys) (energy_type : CreateNpy.EnergyType)
        (fill_value : Val),
      (fs.filter (fun p => startsWithCalc p.1)).isEmpty = false →
      (∃ p ∈ fs.filter (fun p => startsWithCalc p.1),
        parseCalcIndex p.1 ≠ none) →
      (∀ p₁ ∈ fs.filter (fun p => startsWithCalc p.1),
        ∀ p₂ ∈ fs.filter (fun p => startsWithCalc p.1),
        parseCalcIndex p₁.1 = parseCalcIndex p₂.1 →
        parseCalcIndex p₁.1 ≠ none → p₁ = p₂) →
      ∃ arr : List Val,
        CreateNpy.create_energies_array_direct fs energy_type fill_value
          = .ok arr
        ∧ arr.length = CreateNpy.fsMaxIdx fs + 1
        ∧ (∀ p ∈ fs.filter (fun p => startsWithCalc p.1), ∀ i : ℕ,
            parseCalcIndex p.1 = some i →
            ∀ e : ℚ,
            CreateNpy.extract_energy_from_outcar p.2 energy_type = some e →
            arr[i]? = some (Val.num e))
        ∧ (∀ i ≤ CreateNpy.fsMaxIdx fs,
            (∀ p ∈ fs.filter (fun p => startsWithCalc p.1),
              parseCalcIndex p.1 ≠ some i) →
            arr[i]? = some fill_value)
        ∧ (∀ p ∈ fs.filter (fun p => startsWithCalc p.1), ∀ i : ℕ,
            parseCalcIndex p.1 = some i →
            CreateNpy.extract_energy_from_outcar p.2 energy_type = none →
            arr[i]? = some fill_value)) :=
  ⟨fun t fill_value energy_col h₁ h₂ h₃ h₄ h₅ =>
      CreateNpy.csv_assembly_spec t fill_value energy_col h₁ h₂ h₃ h₄ h₅,
    fun fs energy_type fill_value h₁ h₂ h₃ =>
      CreateNpy.direct_assembly_spec fs energy_type fill_value h₁ h₂ h₃⟩

/-- C1 witness: the spec's scenario — identifiers 0 and 2 present, 1
absent — instantiated for both modes, a table with two rows and a directory
listing with two parseable runs plus one unparseable entry. -/
theorem claim_C1_witness :
    (∃ arr : List Val,
      CreateNpy.create_energies_array_from_csv
        { columns := [CreateNpy.ColName.Index,
            CreateNpy.ColName.Energy_sigma_0_eV]
          rows := [
            [(CreateNpy.ColName.Index, Val.num 0),
              (CreateNpy.ColName.Energy_sigma_0_eV, Val.num (-3))],
            [(CreateNpy.ColName.Index, Val.num 2),
              (CreateNpy.ColName.Energy_sigma_0_eV, Val.num (-5))]] }
        Val.nan = .ok arr
      ∧ arr.length = CreateNpy.csvMaxIdx
          { columns := [CreateNpy.ColName.Index,
              CreateNpy.ColName.Energy_sigma_0_eV]
            rows := [
              [(CreateNpy.ColName.Index, Val.num 0),
                (CreateNpy.ColName.Energy_sigma_0_eV, Val.num (-3))],
              [(CreateNpy.ColName.Index, Val.num 2),
                (CreateNpy.ColName.Energy_sigma_0_eV, Val.num (-5))]] } + 1
      ∧ (∀ r ∈ ([
            [(CreateNpy.ColName.Index, Val.num 0),
              (CreateNpy.ColName.Energy_sigma_0_eV, Val.num (-3))],
            [(CreateNpy.ColName.Index, Val.num 2),
              (CreateNpy.ColName.Energy_sigma_0_eV, Val.num (-5))]] :
            List CreateNpy.Row), ∀ i : ℕ, CreateNpy.rowIdx r = some i →
          ∀ e : ℚ,
          CreateNpy.getCell r CreateNpy.ColName.Energy_sigma_0_eV = Val.num e →
          arr[i]? = some (Val.num e))
      ∧ (∀ i ≤ CreateNpy.csvMaxIdx
            { columns := [CreateNpy.ColName.Index,
                CreateNpy.ColName.Energy_sigma_0_eV]
              rows := [
                [(CreateNpy.ColName.Index, Val.num 0),
                  (CreateNpy.ColName.Energy_sigma_0_eV, Val.num (-3))],
                [(CreateNpy.ColName.Index, Val.num 2),
                  (CreateNpy.ColName.Energy_sigma_0_eV, Val.num (-5))]] },
          (∀ r ∈ ([
              [(CreateNpy.ColName.Index, Val.num 0),
                (CreateNpy.ColName.Energy_sigma_0_eV, Val.num (-3))],
              [(CreateNpy.ColName.Index, Val.num 2),
                (CreateNpy.ColName.Energy_sigma_0_eV, Val.num (-5))]] :
              List CreateNpy.Row), CreateNpy.rowIdx r ≠ some i) →
          arr[i]? = some Val.nan)
      ∧ (∀ r ∈ ([
            [(CreateNpy.ColName.Index, Val.num 0),
              (CreateNpy.ColName.Energy_sigma_0_eV, Val.num (-3))],
            [(CreateNpy.ColName.Index, Val.num 2),
              (CreateNpy.ColName.Energy_sigma_0_eV, Val.num (-5))]] :
            List CreateNpy.Row), ∀ i : ℕ, CreateNpy.rowIdx r = some i →
          CreateNpy.getCell r CreateNpy.ColName.Energy_sigma_0_eV = Val.nan →
          arr[i]? = some Val.nan))
    ∧ (∃ arr : List Val,
      CreateNpy.create_energies_array_direct
        [([calcWord, [48]],
            some ⟨2000, [LogItem.accuracy, LogItem.esig ⟨-3, false, true⟩]⟩),
          ([calcWord, [50]],
            some ⟨2000, [LogItem.accuracy, LogItem.esig ⟨-5, false, true⟩]⟩),
          ([calcWord, [97, 98, 99]], none)]
        CreateNpy.EnergyType.sigma0 Val.nan = .ok arr
      ∧ arr.length = CreateNpy.fsMaxIdx
          [([calcWord, [48]],
              some ⟨2000, [LogItem.accuracy, LogItem.esig ⟨-3, false, true⟩]⟩),
            ([calcWord, [50]],
              some ⟨2000, [LogItem.accuracy, LogItem.esig ⟨-5, false, true⟩]⟩),
            ([calcWord, [97, 98, 99]], none)] + 1
      ∧ (∀ p ∈ ([([calcWord, [48]],
              some ⟨2000, [LogItem.accuracy, LogItem.esig ⟨-3, false, true⟩]⟩),
            ([calcWord, [50]],
              some ⟨2000, [LogItem.accuracy, LogItem.esig ⟨-5, false, true⟩]⟩),
            ([calcWord, [97, 98, 99]], none)] : FileSys).filter
            (fun p => startsWithCalc p.1), ∀ i : ℕ,
          parseCalcIndex p.1 = some i →
          ∀ e : ℚ,
          CreateNpy.extract_energy_from_outcar p.2 CreateNpy.EnergyType.sigma0
            = some e →
          arr[i]? = some (Val.num e))
      ∧ (∀ i ≤ CreateNpy.fsMaxIdx
            [([calcWord, [48]],
                some ⟨2000, [LogItem.accuracy, LogItem.esig ⟨-3, false, true⟩]⟩),
              ([calcWord, [50]],
                some ⟨2000, [LogItem.accuracy, LogItem.esig ⟨-5, false, true⟩]⟩),
              ([calcWord, [97, 98, 99]], none)],
          (∀ p ∈ ([([calcWord, [48]],
                some ⟨2000, [LogItem.accuracy, LogItem.esig ⟨-3, false, true⟩]⟩),
              ([calcWord, [50]],
                some ⟨2000, [LogItem.accuracy, LogItem.esig ⟨-5, false, true⟩]⟩),
              ([calcWord, [97, 98, 99]], none)] : FileSys).filter
              (fun p => startsWithCalc p.1),
            parseCalcIndex p.1 ≠ some i) →
          arr[i]? = some Val.nan)
      ∧ (∀ p ∈ ([([calcWord, [48]],
              some ⟨2000, [LogItem.accuracy, LogItem.esig ⟨-3, false, true⟩]⟩),
            ([calcWord, [50]],
              some ⟨2000, [LogItem.accuracy, LogItem.esig ⟨-5, false, true⟩]⟩),
            ([calcWord, [97, 98, 99]], none)] : FileSys).filter
            (fun p => startsWithCalc p.1), ∀ i : ℕ,
          parseCalcIndex p.1 = some i →
          CreateNpy.extract_energy_from_outcar p.2 CreateNpy.EnergyType.sigma0
            = none →
          arr[i]? = some Val.nan)) :=
  ⟨claim_C1.1
      { columns := [CreateNpy.ColName.Index,
          CreateNpy.ColName.Energy_sigma_0_eV]
        rows := [
          [(CreateNpy.ColName.Index, Val.num 0),
            (CreateNpy.ColName.Energy_sigma_0_eV, Val.num (-3))],
          [(CreateNpy.ColName.Index, Val.num 2),
            (CreateNpy.ColName.Energy_sigma_0_eV, Val.num (-5))]] }
      Val.nan CreateNpy.ColName.Energy_sigma_0_eV
      (by decide) (by decide) (by decide) (by decide) (by decide),
    claim_C1.2
      [([calcWord, [48]],
          some ⟨2000, [LogItem.accuracy, LogItem.esig ⟨-3, false, true⟩]⟩),
        ([calcWord, [50]],
          some ⟨2000, [LogItem.accuracy, LogItem.esig ⟨-5, false, true⟩]⟩),
        ([calcWord, [97, 98, 99]], none)]
      CreateNpy.EnergyType.sigma0 Val.nan
      (by decide) (by decide) (by decide)⟩
